import Mathlib

/-!
Shallow embedding of the FaceRecApps repository (OpenCV face-recognition
command-line tools) and verification of its specification claims.

The embedding covers:
* `traverseDirectory` (identical in `FaceRecognitionImage.cpp`,
  `Name2Protraits.cpp` and the face-collection source),
* `loadFaceData` (identical in `FaceRecognitionImage.cpp` and the
  face-collection source),
* the per-face recognition step of the batch-image tool and of the
  live-capture tool,
* the interactive "enroll face" step of the live-capture tool,
* the `Name2Protraits` main logic and the shared
  `"[" << firstToken << "]" << endl` info-file writing idiom.

The filesystem is modelled as a map from directory paths to optional entry
listings (`none` = `opendir` fails); each listing entry carries the outcome
of `stat` on its full path (`none` = `stat` fails).  Images are modelled as
rasters with explicit dimensions; the bicubic interpolation kernel of
`cv::resize` is abstracted to an index remapping, since only the geometry
(output dimensions) is relevant to any claim.
-/

/-- `enum DirectoryItemType` from the sources. -/
inductive DirectoryItemType where
  | DIRITEM_OTHER
  | DIRITEM_FILE
  | DIRITEM_DIR
deriving DecidableEq, Repr

open DirectoryItemType

/-- Outcome of `stat` on an entry (POSIX file mode, restricted to the three
cases the sources distinguish: `S_ISREG`, `S_ISDIR`, anything else). -/
inductive StatMode where
  | regMode
  | dirMode
  | othMode
deriving DecidableEq, Repr

/-- The classification chain of the sources: start from `DIRITEM_OTHER`,
switch to `DIRITEM_FILE` when `S_ISREG(st.st_mode)` and to `DIRITEM_DIR`
when `S_ISDIR(st.st_mode)` (the two POSIX predicates are exclusive). -/
def classifyMode : StatMode → DirectoryItemType
  | .regMode => DIRITEM_FILE
  | .dirMode => DIRITEM_DIR
  | .othMode => DIRITEM_OTHER

/-- One `readdir` result: the entry name together with the `stat` outcome of
`dirpath + "/" + name` (`none` means `stat` returned `-1`). -/
structure DirEnt where
  name : String
  status : Option StatMode
deriving DecidableEq, Repr

/-- Return state of `traverseDirectory`: the `int` status (`0` success,
`-1` failure) and the two out-parameter vectors. -/
structure TravResult where
  status : Int
  items : List String
  types : List DirectoryItemType
deriving DecidableEq, Repr

/-- Grayscale raster (`cv::Mat` after `imread(path, 0)`). -/
structure Img where
  rows : Nat
  cols : Nat
  pixel : Nat → Nat → Nat

/-- Filesystem model: `listDir` is the `opendir`/`readdir` view of a
directory path (`none` = `opendir` fails), `readImage` the decoded image at
a file path, `pathExists` the `access(path, 0) == 0` check. -/
structure FileSystem where
  listDir : String → Option (List DirEnt)
  readImage : String → Img
  pathExists : String → Bool

/-- The `dirp->d_name[0] == '.'` hidden-entry test of `traverseDirectory`
(a C string's first character; an empty name has first character `'\\0'`). -/
def isHidden (s : String) : Bool :=
  match s.data with
  | [] => false
  | c :: _ => c = '.'

/-- The `while ((dirp = readdir(dp)) != NULL)` loop of `traverseDirectory`:
hidden entries (leading `.`) are skipped before anything else; a `stat`
failure returns `-1` immediately, keeping whatever was already pushed;
otherwise the name and its classification are appended. -/
def travLoop : List DirEnt → List String → List DirectoryItemType → TravResult
  | [], items, types => ⟨0, items, types⟩
  | e :: rest, items, types =>
    if isHidden e.name then travLoop rest items types
    else
      match e.status with
      | none => ⟨-1, items, types⟩
      | some m => travLoop rest (items ++ [e.name]) (types ++ [classifyMode m])

/-- `traverseDirectory(dirpath, items, types)` (identical in all three
sources).  The out-parameter vectors are cleared first, so the result only
depends on the directory; `opendir` failure returns `-1` with the cleared
(empty) vectors. -/
def traverseDirectory (fs : FileSystem) (dirpath : String) : TravResult :=
  match fs.listDir dirpath with
  | none => ⟨-1, [], []⟩
  | some es => travLoop es [] []

/-- `traverseDirectory` as called on out-parameter vectors that may hold
prior contents: the source clears both vectors on entry, so the result is
independent of them. -/
def traverseDirectoryFrom (fs : FileSystem) (dirpath : String)
    (prevItems : List String) (prevTypes : List DirectoryItemType) : TravResult :=
  traverseDirectory fs dirpath

/-- `cv::resize(src, dst, Size(w, h), 1.0, 1.0, INTER_CUBIC)`.  The
interpolation kernel is abstracted to an index remapping; the claims only
depend on the output dimensions (`dst.rows = h`, `dst.cols = w`). -/
def cvResize (w h : Nat) (img : Img) : Img :=
  ⟨h, w, fun i j => img.pixel (i * img.rows / h) (j * img.cols / w)⟩

/-- In-memory face dataset built by `loadFaceData`: the three out-parameters
`images`, `labels` and `names` (the `std::map<int, string>` is modelled as an
association list with `std::map::insert` no-overwrite semantics). -/
structure FaceDataset where
  images : List Img
  labels : List Int
  names : List (Int × String)

/-- The empty state of the three cleared containers. -/
def emptyFaceDataset : FaceDataset := ⟨[], [], []⟩

/-- `std::map::insert(pair(k, v))`: inserts only when the key is absent. -/
def mapInsert {α β : Type} [BEq α] (m : List (α × β)) (k : α) (v : β) :
    List (α × β) :=
  match m.lookup k with
  | some _ => m
  | none => m ++ [(k, v)]

/-- The inner `for (int j...)` loop of `loadFaceData` over the zipped
`items_face`/`types_face` of one person directory `dirPath` whose entry name
is `personName` and whose enumeration index is `i`: every `DIRITEM_FILE`
entry is read (`imread(path, 0)`), resized to 64x64 and pushed with label
`i`; `names.insert(pair(i, personName))` runs once per pushed file. -/
def pushFaceFiles (fs : FileSystem) (dirPath personName : String) (i : Nat) :
    List (String × DirectoryItemType) → FaceDataset → FaceDataset
  | [], acc => acc
  | (fn, ty) :: rest, acc =>
    if ty = DIRITEM_FILE then
      pushFaceFiles fs dirPath personName i rest
        { images := acc.images ++ [cvResize 64 64 (fs.readImage (dirPath ++ "/" ++ fn))]
          labels := acc.labels ++ [(i : Int)]
          names := mapInsert acc.names (i : Int) personName }
    else pushFaceFiles fs dirPath personName i rest acc

/-- The outer `for (int i...)` loop of `loadFaceData` over the zipped
`items_data`/`types_data` of the faces directory `base`; `i` is the loop
index (incremented for every entry, directory or not).  A failing
`traverseDirectory` on a person directory raises `CV_Error`; the `Except`
error carries the out-parameter containers as they stand at the throw,
since in C++ the caller's vectors keep their partial contents. -/
def loadFaceLoop (fs : FileSystem) (base : String) :
    List (String × DirectoryItemType) → Nat → FaceDataset →
    Except (String × FaceDataset) FaceDataset
  | [], _, acc => .ok acc
  | (nm, ty) :: rest, i, acc =>
    if ty = DIRITEM_DIR then
      let sub := traverseDirectory fs (base ++ "/" ++ nm)
      if sub.status < 0 then
        .error ("Cannot read the face image directory " ++ (base ++ "/" ++ nm) ++ ".", acc)
      else
        loadFaceLoop fs base rest (i + 1)
          (pushFaceFiles fs (base ++ "/" ++ nm) nm i (sub.items.zip sub.types) acc)
    else loadFaceLoop fs base rest (i + 1) acc

/-- `loadFaceData(datapath, images, labels, names)` (identical in
`FaceRecognitionImage.cpp` and the face-collection source).  The containers
are cleared first; a failing traversal of `datapath + "/faces"` raises
`CV_Error` with the containers still empty. -/
def loadFaceData (fs : FileSystem) (datapath : String) :
    Except (String × FaceDataset) FaceDataset :=
  let faceDataPath := datapath ++ "/faces"
  let t := traverseDirectory fs faceDataPath
  if t.status < 0 then
    .error ("Cannot read the face database directory " ++ faceDataPath ++ ".",
      emptyFaceDataset)
  else
    loadFaceLoop fs faceDataPath (t.items.zip t.types) 0 emptyFaceDataset

/-- `cv::Rect_<int>`: an axis-aligned rectangle with integer coordinates. -/
structure Rect where
  x : Int
  y : Int
  width : Int
  height : Int
deriving DecidableEq, Repr

/-- The C++ `double` → `int` standard conversion: truncation toward zero.
The `double` values of the program are modelled as exact rationals. -/
def cppDoubleToInt (q : ℚ) : Int :=
  if 0 ≤ q then ⌊q⌋ else -⌊-q⌋

/-- The `Rect face_i_original(...)` construction of the face-collection
source: each coordinate is the detector rectangle's coordinate times the
precomputed inverse scale factor (`invfscale_x` for `x`/`width`,
`invfscale_y` for `y`/`height`), converted from `double` back to `int`. -/
def scaleRect (invx invy : ℚ) (r : Rect) : Rect :=
  ⟨cppDoubleToInt ((r.x : ℚ) * invx),
   cppDoubleToInt ((r.y : ℚ) * invy),
   cppDoubleToInt ((r.width : ℚ) * invx),
   cppDoubleToInt ((r.height : ℚ) * invy)⟩

/-- `Mat::operator()(Rect)` — crop a region of interest out of an image. -/
def matRoi (img : Img) (r : Rect) : Img :=
  ⟨r.height.toNat, r.width.toNat,
   fun i j => img.pixel (i + r.y.toNat) (j + r.x.toNat)⟩

/-- The detector rectangle lies fully inside the frame bounds. -/
def insideFrame (frame : Img) (r : Rect) : Prop :=
  0 ≤ r.x ∧ 0 ≤ r.y ∧ 0 < r.width ∧ 0 < r.height ∧
    r.x + r.width ≤ (frame.cols : Int) ∧ r.y + r.height ≤ (frame.rows : Int)

/-- Reading `names[prediction]` on a `std::map<int, string>`:
`operator[]` default-constructs and inserts an empty string when the key is
absent, so the read always yields the mapped value or `""`. -/
def cppMapRead (m : List (Int × String)) (k : Int) : String :=
  (m.lookup k).getD ""

/-- Per-face recognition result: the values the loop body reports (the name
resolved from the predicted label, the confidence, and the bounding box as
drawn/serialized). -/
structure RecResult where
  name : String
  confidence : ℚ
  box : Rect

/-- The per-face loop body of `FaceRecognitionImage.cpp` `main` (lines
276-324): crop `gray(face_i)`, resize to the trained size `im_width` x
`im_height`, predict, resolve the name via `names[prediction]`, and report
the detector rectangle `face_i` itself as position/size. -/
def batchProcessFace (gray : Img) (imWidth imHeight : Nat)
    (model : Img → Int × ℚ) (names : List (Int × String)) (faceI : Rect) :
    RecResult :=
  let face := matRoi gray faceI
  let faceResized := cvResize imWidth imHeight face
  let pc := model faceResized
  { name := cppMapRead names pc.1, confidence := pc.2, box := faceI }

/-- The per-face loop body of the face-collection source (lines 499-520 and
574-582): the rectangle detected on the downscaled 320x240 frame is mapped
back to full-resolution coordinates as `face_i_original` via the inverse
scale factors, which is the rectangle drawn and labelled; the crop for
prediction still uses `face_i` on the downscaled grayscale frame. -/
def liveProcessFace (gray : Img) (imWidth imHeight : Nat)
    (model : Img → Int × ℚ) (names : List (Int × String))
    (invx invy : ℚ) (faceI : Rect) : RecResult :=
  let faceIOriginal := scaleRect invx invy faceI
  let face := matRoi gray faceI
  let faceResized := cvResize imWidth imHeight face
  let pc := model faceResized
  { name := cppMapRead names pc.1, confidence := pc.2, box := faceIOriginal }

/-- Mutable session state of the face-collection `main` loop: the dataset
containers, the `name2label` reverse map, the data the model was last
trained on, the save counter and the save-face flag. -/
structure CollectState where
  images : List Img
  labels : List Int
  names : List (Int × String)
  name2label : List (String × Int)
  trainedImages : List Img
  trainedLabels : List Int
  saveImageCount : Nat
  saveFaceFlag : Bool

/-- The `if (saveFaceFlag)` block of the face-collection source (lines
523-548), executed for the current face crop `faceResized` at Unix time
`t`: save the image under `dirUsrfaces`, look up the session name in
`name2label` (default `-1`), append the sample, insert into both maps, and
synchronously retrain the model on the full updated dataset.  Returns the
new state together with the saved file name. -/
def enrollFace (st : CollectState) (dirUsrfaces expectName : String)
    (faceResized : Img) (t : Nat) : CollectState × String :=
  let strFilename := dirUsrfaces ++ "/" ++ toString t ++ "_" ++
    toString st.saveImageCount ++ ".jpg"
  let usrLabel : Int := (st.name2label.lookup expectName).getD (-1)
  let images' := st.images ++ [faceResized]
  let labels' := st.labels ++ [usrLabel]
  ({ images := images'
     labels := labels'
     names := mapInsert st.names usrLabel expectName
     name2label := mapInsert st.name2label expectName usrLabel
     trainedImages := images'
     trainedLabels := labels'
     saveImageCount := st.saveImageCount + 1
     saveFaceFlag := false }, strFilename)

/-- The six whitespace characters of `std::isspace` in the default locale,
which delimit `operator>>` string extraction. -/
def isCppSpace (c : Char) : Bool :=
  c = ' ' || c = '\t' || c = '\n' || c = '\x0b' || c = '\x0c' || c = '\r'

/-- `ss >> strInfo` on a `stringstream`: skip leading whitespace, then
extract characters up to the next whitespace or end of stream; an empty
stream leaves the string empty. -/
def firstToken (s : String) : String :=
  ⟨(s.data.dropWhile isCppSpace).takeWhile (fun c => !isCppSpace c)⟩

/-- The shared info-file writing idiom of `FaceRecognitionImage.cpp` (lines
326-341) and `Name2Protraits.cpp` (lines 173-187):
`ofsInfo << "[" << strInfo << "]" << endl` where `strInfo` is the first
token extracted from the serialized stream. -/
def infoFileContent (ss : String) : String :=
  "[" ++ firstToken ss ++ "]" ++ "\n"

/-- One serialized JSON object of the batch-image tool's `ssInfo` loop; the
`double` formatting of `confidence` by `operator<<` is abstracted as the
already-formatted string `confStr`. -/
def batchInfoEntry (strName confStr : String) (faceI : Rect) : String :=
  "\x7b\"prediction\":\"" ++ strName ++ "\",\"confidence\":" ++ confStr ++
    ",\"position\":\x7b\"x\":" ++ toString faceI.x ++ ",\"y\":" ++
    toString faceI.y ++ "\x7d,\"size\":\x7b\"width\":" ++
    toString faceI.width ++ ",\"height\":" ++ toString faceI.height ++
    "\x7d\x7d"

/-- The `if (i>0) ssInfo << ","` joining of the batch-image tool's
serialized per-face objects. -/
def batchSerialize : List String → String
  | [] => ""
  | [p] => p
  | p :: rest => p ++ "," ++ batchSerialize rest

/-- The content the batch-image tool writes to `<out_info>`. -/
def batchInfoFile (pieces : List String) : String :=
  infoFileContent (batchSerialize pieces)

/-- The inner `for (int j...)` loop of `Name2Protraits.cpp` over the zipped
user-portrait directory listing: each `DIRITEM_FILE` entry appends
`,` (unless it is the first file) and the quoted full path. -/
def protraitsJoin (dirUsr : String) :
    List (String × DirectoryItemType) → Bool → String
  | [], _ => ""
  | (fn, ty) :: rest, first =>
    if ty = DIRITEM_FILE then
      (if first then "" else ",") ++ "\"" ++ (dirUsr ++ "/" ++ fn) ++ "\"" ++
        protraitsJoin dirUsr rest false
    else protraitsJoin dirUsr rest first

/-- The `for (int i...)` search loop of `Name2Protraits.cpp` over the zipped
`protraits` listing: the first entry whose name equals `name` decides the
result — a non-directory breaks with the stream still empty, a directory is
traversed and its files serialized (the traversal status is not checked). -/
def searchProtraits (fs : FileSystem) (dirProtraits name : String) :
    List (String × DirectoryItemType) → String
  | [] => ""
  | (nm, ty) :: rest =>
    if name = nm then
      if ty ≠ DIRITEM_DIR then ""
      else
        let dirUsr := dirProtraits ++ "/" ++ name
        let tu := traverseDirectory fs dirUsr
        protraitsJoin dirUsr (tu.items.zip tu.types) true
    else searchProtraits fs dirProtraits name rest

/-- The `ssInfo` stream built by `Name2Protraits.cpp` `main` (lines
124-171): nothing is appended when `access` fails on
`<data_path>/protraits`; otherwise the directory is traversed (status
unchecked) and searched for `name`. -/
def buildProtraitsInfo (fs : FileSystem) (dirData name : String) : String :=
  let dirProtraits := dirData ++ "/protraits"
  if fs.pathExists dirProtraits then
    let t := traverseDirectory fs dirProtraits
    searchProtraits fs dirProtraits name (t.items.zip t.types)
  else ""

/-- Observable outcome of a `Name2Protraits.cpp` run: the info-file content
(`none` when the output stream cannot be opened, in which case only an
error is printed) and the process exit code. -/
structure N2PResult where
  content : Option String
  exitCode : Int
deriving DecidableEq, Repr

/-- `Name2Protraits.cpp` `main` on well-formed arguments (`argc == 4`):
builds the stream, writes `"[" << firstToken << "]" << endl` when the
output file opens, and returns 0 in every case. -/
def name2ProtraitsMain (fs : FileSystem) (dirData name : String)
    (outOpens : Bool) : N2PResult :=
  ⟨if outOpens then some (infoFileContent (buildProtraitsInfo fs dirData name))
    else none, 0⟩

/-- Spec-side description (written from the spec's words, for comparison):
a JSON array of the given paths, each double-quoted, comma-separated. -/
def specQuotedJoin : List String → String
  | [] => ""
  | [p] => "\"" ++ p ++ "\""
  | p :: rest => "\"" ++ p ++ "\"" ++ "," ++ specQuotedJoin rest

/-- The full paths of the `DIRITEM_FILE` entries of a zipped listing, in
enumeration order. -/
def filePathsOf (dirUsr : String) (l : List (String × DirectoryItemType)) :
    List String :=
  l.filterMap (fun p => if p.2 = DIRITEM_FILE then some (dirUsr ++ "/" ++ p.1)
    else none)

/-- The label sequence `loadFaceData` appends for person directories with
`ms` files each, the first having enumeration index `i`. -/
def labelsFor : List Nat → Nat → List Int
  | [], _ => []
  | m :: rest, i => List.replicate m (i : Int) ++ labelsFor rest (i + 1)

/-- A 1x1 black placeholder raster used by the concrete filesystems below. -/
def imgZero : Img := ⟨1, 1, fun _ _ => 0⟩

/-- A healthy database: two persons with 2 and 1 face images, and a
portrait directory for `bob` with two portraits. -/
def fsOne : FileSystem where
  listDir p :=
    if p = "db/faces" then
      some [⟨"alice", some .dirMode⟩, ⟨"bob", some .dirMode⟩]
    else if p = "db/faces/alice" then
      some [⟨"a1.jpg", some .regMode⟩, ⟨"a2.jpg", some .regMode⟩]
    else if p = "db/faces/bob" then some [⟨"b1.jpg", some .regMode⟩]
    else if p = "db/protraits" then some [⟨"bob", some .dirMode⟩]
    else if p = "db/protraits/bob" then
      some [⟨"p1.jpg", some .regMode⟩, ⟨"p2.jpg", some .regMode⟩]
    else none
  readImage _ := imgZero
  pathExists _ := true

/-- A database whose single person directory holds no image at all. -/
def fsEmptyPerson : FileSystem where
  listDir p :=
    if p = "db/faces" then some [⟨"alice", some .dirMode⟩]
    else if p = "db/faces/alice" then some []
    else none
  readImage _ := imgZero
  pathExists _ := true

/-- A database whose faces directory interleaves a plain file before the
only person directory. -/
def fsInterleaved : FileSystem where
  listDir p :=
    if p = "db/faces" then
      some [⟨"readme.txt", some .regMode⟩, ⟨"alice", some .dirMode⟩]
    else if p = "db/faces/alice" then some [⟨"1.jpg", some .regMode⟩]
    else none
  readImage _ := imgZero
  pathExists _ := true

/-- A database whose first person directory loads fine and whose second
person directory cannot be opened. -/
def fsBadSub : FileSystem where
  listDir p :=
    if p = "db/faces" then
      some [⟨"alice", some .dirMode⟩, ⟨"bob", some .dirMode⟩]
    else if p = "db/faces/alice" then some [⟨"a.jpg", some .regMode⟩]
    else none
  readImage _ := imgZero
  pathExists _ := true

/-- A database whose portrait directory for `bob` holds a single regular
file whose name contains a space. -/
def fsSpacePath : FileSystem where
  listDir p :=
    if p = "d/protraits" then some [⟨"bob", some .dirMode⟩]
    else if p = "d/protraits/bob" then some [⟨"a b.jpg", some .regMode⟩]
    else none
  readImage _ := imgZero
  pathExists _ := true


/-- A filesystem on which every directory fails to open. -/
def fsUnreadable : FileSystem where
  listDir _ := none
  readImage _ := imgZero
  pathExists _ := true

/-- The label/name containers as they stand on the error exit of
`loadFaceData` (`none` when the call succeeded). -/
def errContainers :
    Except (String × FaceDataset) FaceDataset →
      Option (List Int × List (Int × String))
  | .error (_, st) => some (st.labels, st.names)
  | .ok _ => none

/-- A directory containing only hidden entries. -/
def fsHiddenOnly : FileSystem where
  listDir p :=
    if p = "h" then some [⟨".git", some .dirMode⟩, ⟨".cache", none⟩]
    else none
  readImage _ := imgZero
  pathExists _ := true

/-! ### Lemmas about the traversal loop -/

theorem travLoop_hidden (es : List DirEnt) (a : List String)
    (b : List DirectoryItemType) (h : ∀ e ∈ es, isHidden e.name) :
    travLoop es a b = ⟨0, a, b⟩ := by
  induction es with
  | nil => rfl
  | cons e rest ih =>
    simp only [travLoop, h e (List.mem_cons_self e rest), if_true]
    exact ih fun e' he' => h e' (List.mem_cons_of_mem e he')

theorem travLoop_const (m₀ : StatMode) :
    ∀ (es : List DirEnt) (a : List String) (b : List DirectoryItemType),
    (∀ e ∈ es, ¬ isHidden e.name ∧ e.status = some m₀) →
    travLoop es a b =
      ⟨0, a ++ es.map (·.name), b ++ es.map (fun _ => classifyMode m₀)⟩ := by
  intro es
  induction es with
  | nil => intro a b _; simp [travLoop]
  | cons e rest ih =>
    intro a b h
    obtain ⟨hnh, hst⟩ := h e (List.mem_cons_self e rest)
    simp only [travLoop, hnh, if_false, hst, Bool.false_eq_true]
    rw [ih (a ++ [e.name]) (b ++ [classifyMode m₀])
      (fun e' he' => h e' (List.mem_cons_of_mem e he'))]
    simp

theorem travLoop_length : ∀ (es : List DirEnt) (a : List String)
    (b : List DirectoryItemType), a.length = b.length →
    (travLoop es a b).items.length = (travLoop es a b).types.length := by
  intro es
  induction es with
  | nil => intro a b h; exact h
  | cons e rest ih =>
    intro a b h
    simp only [travLoop]
    by_cases hh : isHidden e.name
    · simpa [hh] using ih a b h
    · cases hst : e.status with
      | none => simpa [hh, hst] using h
      | some m =>
        simpa [hh, hst] using
          ih (a ++ [e.name]) (b ++ [classifyMode m]) (by simp [h])

theorem travLoop_mem : ∀ (es : List DirEnt) (a : List String)
    (b : List DirectoryItemType), a.length = b.length →
    ∀ pr ∈ (travLoop es a b).items.zip (travLoop es a b).types,
      pr ∈ a.zip b ∨
        ∃ e ∈ es, e.name = pr.1 ∧ ∃ m, e.status = some m ∧
          pr.2 = classifyMode m := by
  intro es
  induction es with
  | nil => intro a b _ pr hpr; exact Or.inl hpr
  | cons e rest ih =>
    intro a b h pr hpr
    simp only [travLoop] at hpr
    by_cases hh : isHidden e.name
    · simp only [hh, if_true] at hpr
      rcases ih a b h pr hpr with hl | ⟨e', he', hrest⟩
      · exact Or.inl hl
      · exact Or.inr ⟨e', List.mem_cons_of_mem e he', hrest⟩
    · cases hst : e.status with
      | none =>
        simp only [hh, hst, if_false, Bool.false_eq_true] at hpr
        exact Or.inl hpr
      | some m =>
        simp only [hh, hst, if_false, Bool.false_eq_true] at hpr
        rcases ih (a ++ [e.name]) (b ++ [classifyMode m]) (by simp [h]) pr hpr
          with hl | ⟨e', he', hrest⟩
        · rw [List.zip_append h] at hl
          rcases List.mem_append.mp hl with hl' | hl'
          · exact Or.inl hl'
          · have hpe : pr = (e.name, classifyMode m) := by simpa using hl'
            subst hpe
            exact Or.inr ⟨e, List.mem_cons_self e rest, rfl, m, hst, rfl⟩
        · exact Or.inr ⟨e', List.mem_cons_of_mem e he', hrest⟩

theorem travLoop_notHidden : ∀ (es : List DirEnt) (a : List String)
    (b : List DirectoryItemType), (∀ nm ∈ a, ¬ isHidden nm) →
    ∀ nm ∈ (travLoop es a b).items, ¬ isHidden nm := by
  intro es
  induction es with
  | nil => intro a b ha nm hnm; exact ha nm hnm
  | cons e rest ih =>
    intro a b ha nm hnm
    simp only [travLoop] at hnm
    by_cases hh : isHidden e.name
    · simp only [hh, if_true] at hnm
      exact ih a b ha nm hnm
    · cases hst : e.status with
      | none =>
        simp only [hh, hst, if_false, Bool.false_eq_true] at hnm
        exact ha nm hnm
      | some m =>
        simp only [hh, hst, if_false, Bool.false_eq_true] at hnm
        refine ih (a ++ [e.name]) (b ++ [classifyMode m]) ?_ nm hnm
        intro nm' hnm'
        rcases List.mem_append.mp hnm' with h' | h'
        · exact ha nm' h'
        · simp at h'; simpa [h'] using hh

/-! ### C8 and C9: the directory catalog -/

/-- C8: for every directory, no entry whose name begins with `.` appears in
the catalog's output; in particular, for a directory containing only hidden
entries, `traverseDirectory` returns success with empty items and types. -/
theorem catalog_excludes_hidden :
    (∀ (fs : FileSystem) (p : String),
      ∀ nm ∈ (traverseDirectory fs p).items, ¬ isHidden nm) ∧
    (∀ (fs : FileSystem) (p : String) (es : List DirEnt),
      fs.listDir p = some es → (∀ e ∈ es, isHidden e.name) →
      traverseDirectory fs p = ⟨0, [], []⟩) := by
  constructor
  · intro fs p nm hnm
    simp only [traverseDirectory] at hnm
    cases h : fs.listDir p with
    | none => rw [h] at hnm; simp at hnm
    | some es =>
      rw [h] at hnm
      exact travLoop_notHidden es [] [] (by simp) nm hnm
  · intro fs p es hls hall
    simp only [traverseDirectory, hls]
    exact travLoop_hidden es [] [] hall

/-- Witness for C8 at a concrete directory holding only hidden entries. -/
theorem catalog_excludes_hidden_witness :
    fsHiddenOnly.listDir "h" = some [⟨".git", some .dirMode⟩, ⟨".cache", none⟩] ∧
    traverseDirectory fsHiddenOnly "h" = ⟨0, [], []⟩ :=
  ⟨rfl, catalog_excludes_hidden.2 fsHiddenOnly "h"
    [⟨".git", some .dirMode⟩, ⟨".cache", none⟩] rfl (by decide)⟩

/-- C9: on every return of `traverseDirectory` (success or failure) the two
out-parameter vectors have equal length, every reported type is the
classification of the identically indexed reported name as obtained from
`stat`, and the result is independent of the vectors' prior contents (they
are cleared on entry). -/
theorem catalog_vectors_aligned :
    ∀ (fs : FileSystem) (p : String) (prevItems : List String)
      (prevTypes : List DirectoryItemType),
      traverseDirectoryFrom fs p prevItems prevTypes = traverseDirectory fs p ∧
      (traverseDirectory fs p).items.length =
        (traverseDirectory fs p).types.length ∧
      ∀ pr ∈ (traverseDirectory fs p).items.zip (traverseDirectory fs p).types,
        ∃ es, fs.listDir p = some es ∧ ∃ e ∈ es, e.name = pr.1 ∧
          ∃ m, e.status = some m ∧ pr.2 = classifyMode m := by
  intro fs p a b
  refine ⟨rfl, ?_, ?_⟩
  · simp only [traverseDirectory]
    cases h : fs.listDir p with
    | none => rfl
    | some es => exact travLoop_length es [] [] rfl
  · intro pr hpr
    simp only [traverseDirectory] at hpr
    cases h : fs.listDir p with
    | none => rw [h] at hpr; simp at hpr
    | some es =>
      rw [h] at hpr
      rcases travLoop_mem es [] [] rfl pr hpr with hl | he
      · simp at hl
      · exact ⟨es, rfl, he⟩

/-- Witness for C9 at a concrete directory, with stale prior contents in
the out-parameter vectors. -/
theorem catalog_vectors_aligned_witness :
    traverseDirectoryFrom fsOne "db/faces" ["stale"] [DIRITEM_OTHER] =
      traverseDirectory fsOne "db/faces" ∧
    (∃ es, fsOne.listDir "db/faces" = some es ∧ ∃ e ∈ es,
      e.name = ("alice", DIRITEM_DIR).1 ∧ ∃ m, e.status = some m ∧
        ("alice", DIRITEM_DIR).2 = classifyMode m) := by
  refine ⟨(catalog_vectors_aligned fsOne "db/faces" ["stale"] [DIRITEM_OTHER]).1, ?_⟩
  apply (catalog_vectors_aligned fsOne "db/faces" ["stale"] [DIRITEM_OTHER]).2.2
  show ("alice", DIRITEM_DIR) ∈ [("alice", DIRITEM_DIR), ("bob", DIRITEM_DIR)]
  simp

/-! ### Lemmas about association-list maps -/

theorem mapInsert_of_absent {α β : Type} [BEq α] (m : List (α × β)) (k : α)
    (v : β) (h : m.lookup k = none) : mapInsert m k v = m ++ [(k, v)] := by
  simp [mapInsert, h]

theorem lookup_append_single {α β : Type} [BEq α] [LawfulBEq α]
    (m : List (α × β)) (k : α) (v : β) (h : m.lookup k = none) :
    (m ++ [(k, v)]).lookup k = some v := by
  induction m with
  | nil => simp [List.lookup]
  | cons p rest ih =>
    obtain ⟨pk, pv⟩ := p
    cases hk : k == pk with
    | true => simp [List.lookup, hk] at h
    | false =>
      simp only [List.cons_append, List.lookup, hk] at h ⊢
      exact ih h

/-! ### C3, C6 and C7: the recognition pipeline and enrollment -/

/-- C3: when the predicted label is absent from the label-to-name registry,
the name lookup `names[prediction]` yields the defined fallback `""`
(`std::map::operator[]` default-constructs the mapped string) rather than
failing, in both the batch-image path and the live-capture path. -/
theorem unknown_label_fallback :
    ∀ (gray : Img) (imWidth imHeight : Nat) (model : Img → Int × ℚ)
      (names : List (Int × String)) (invx invy : ℚ) (faceI : Rect),
      names.lookup (model (cvResize imWidth imHeight (matRoi gray faceI))).1 =
        none →
      (batchProcessFace gray imWidth imHeight model names faceI).name = "" ∧
      (liveProcessFace gray imWidth imHeight model names invx invy faceI).name =
        "" := by
  intro gray w h model names ix iy r hnone
  constructor <;> simp [batchProcessFace, liveProcessFace, cppMapRead, hnone]

/-- Witness for C3: a registry holding only label 0 and a model predicting
label 5. -/
theorem unknown_label_fallback_witness :
    ([((0 : Int), "alice")].lookup
        ((fun _ : Img => ((5 : Int), (0 : ℚ)))
          (cvResize 64 64 (matRoi imgZero ⟨0, 0, 1, 1⟩))).1 = none) ∧
    (batchProcessFace imgZero 64 64 (fun _ => ((5 : Int), (0 : ℚ)))
      [((0 : Int), "alice")] ⟨0, 0, 1, 1⟩).name = "" ∧
    (liveProcessFace imgZero 64 64 (fun _ => ((5 : Int), (0 : ℚ)))
      [((0 : Int), "alice")] 2 2 ⟨0, 0, 1, 1⟩).name = "" :=
  ⟨rfl, unknown_label_fallback imgZero 64 64 (fun _ => ((5 : Int), (0 : ℚ)))
    [((0 : Int), "alice")] 2 2 ⟨0, 0, 1, 1⟩ rfl⟩

/-- C7: for a detected rectangle fully inside the frame, the batch-image
path reports the detector's rectangle unchanged, and the live-capture path
reports the rectangle with `x`/`width` multiplied by the inverse horizontal
scale factor and `y`/`height` by the inverse vertical one (each product
converted from `double` to `int` by truncation, as the `Rect` constructor
does). -/
theorem bounding_box_reporting :
    ∀ (gray : Img) (imWidth imHeight : Nat) (model : Img → Int × ℚ)
      (names : List (Int × String)) (invx invy : ℚ) (faceI : Rect),
      insideFrame gray faceI →
      (batchProcessFace gray imWidth imHeight model names faceI).box = faceI ∧
      (liveProcessFace gray imWidth imHeight model names invx invy faceI).box =
        ⟨cppDoubleToInt ((faceI.x : ℚ) * invx),
         cppDoubleToInt ((faceI.y : ℚ) * invy),
         cppDoubleToInt ((faceI.width : ℚ) * invx),
         cppDoubleToInt ((faceI.height : ℚ) * invy)⟩ := by
  intro gray w h model names ix iy r _
  exact ⟨rfl, rfl⟩

/-- Witness for C7 at a concrete in-bounds rectangle and inverse scale
factor 5/2. -/
theorem bounding_box_reporting_witness :
    insideFrame imgZero ⟨0, 0, 1, 1⟩ ∧
    (batchProcessFace imgZero 64 64 (fun _ => ((0 : Int), (0 : ℚ)))
      [] ⟨0, 0, 1, 1⟩).box = ⟨0, 0, 1, 1⟩ ∧
    (liveProcessFace imgZero 64 64 (fun _ => ((0 : Int), (0 : ℚ)))
      [] (5/2) (5/2) ⟨0, 0, 1, 1⟩).box =
      ⟨cppDoubleToInt (((0 : Int) : ℚ) * (5/2)),
       cppDoubleToInt (((0 : Int) : ℚ) * (5/2)),
       cppDoubleToInt (((1 : Int) : ℚ) * (5/2)),
       cppDoubleToInt (((1 : Int) : ℚ) * (5/2))⟩ :=
  ⟨by unfold insideFrame; decide,
   (bounding_box_reporting imgZero 64 64 (fun _ => ((0 : Int), (0 : ℚ)))
      [] (5/2) (5/2) ⟨0, 0, 1, 1⟩ (by unfold insideFrame; decide)).1,
   (bounding_box_reporting imgZero 64 64 (fun _ => ((0 : Int), (0 : ℚ)))
      [] (5/2) (5/2) ⟨0, 0, 1, 1⟩ (by unfold insideFrame; decide)).2⟩

/-- C6: one "enroll face" action for a brand-new name (absent from
`name2label`, with label -1 not yet in the registry) adds exactly one
sample with the fresh label -1, adds exactly one registry entry mapping -1
to the name, and retrains the model on the full updated dataset within the
same loop iteration, i.e. before the next frame is processed. -/
theorem enroll_new_name :
    ∀ (st : CollectState) (dirUsrfaces expectName : String)
      (faceResized : Img) (t : Nat),
      st.name2label.lookup expectName = none →
      st.names.lookup (-1 : Int) = none →
      ((enrollFace st dirUsrfaces expectName faceResized t).1.images.length =
          st.images.length + 1 ∧
        (enrollFace st dirUsrfaces expectName faceResized t).1.labels =
          st.labels ++ [(-1 : Int)] ∧
        (enrollFace st dirUsrfaces expectName faceResized t).1.names =
          st.names ++ [((-1 : Int), expectName)] ∧
        (enrollFace st dirUsrfaces expectName faceResized t).1.names.length =
          st.names.length + 1 ∧
        (enrollFace st dirUsrfaces expectName faceResized t).1.names.lookup
          (-1 : Int) = some expectName) ∧
      (enrollFace st dirUsrfaces expectName faceResized t).1.trainedImages =
        (enrollFace st dirUsrfaces expectName faceResized t).1.images ∧
      (enrollFace st dirUsrfaces expectName faceResized t).1.trainedLabels =
        (enrollFace st dirUsrfaces expectName faceResized t).1.labels := by
  intro st d en img t h1 h2
  have hlab : (st.name2label.lookup en).getD (-1) = (-1 : Int) := by
    rw [h1]; rfl
  have hnames : mapInsert st.names (-1 : Int) en = st.names ++ [((-1 : Int), en)] :=
    mapInsert_of_absent st.names (-1) en h2
  refine ⟨⟨?_, ?_, ?_, ?_, ?_⟩, ?_, ?_⟩ <;>
    simp [enrollFace, hlab, hnames, lookup_append_single st.names (-1 : Int) en h2]

/-- Witness for C6: enrolling `bob` into a one-person session state. -/
theorem enroll_new_name_witness :
    ([(("alice" : String), (0 : Int))].lookup "bob" = none ∧
      ([((0 : Int), "alice")].lookup (-1 : Int) = none)) ∧
    (enrollFace ⟨[imgZero], [0], [(0, "alice")], [("alice", 0)],
        [imgZero], [0], 0, true⟩ "db/faces/bob" "bob" imgZero 99).1.names =
      [((0 : Int), "alice")] ++ [((-1 : Int), "bob")] :=
  ⟨⟨rfl, rfl⟩,
   (enroll_new_name ⟨[imgZero], [0], [(0, "alice")], [("alice", 0)],
      [imgZero], [0], 0, true⟩ "db/faces/bob" "bob" imgZero 99 rfl rfl).1.2.2.1⟩

/-! ### Lemmas about the dataset loader -/

theorem pushFaceFiles_allFiles (fs : FileSystem) (d nm : String) (i : Nat) :
    ∀ (fns : List String) (acc : FaceDataset),
      (pushFaceFiles fs d nm i (fns.map (fun fn => (fn, DIRITEM_FILE))) acc).images =
        acc.images ++
          fns.map (fun fn => cvResize 64 64 (fs.readImage (d ++ "/" ++ fn))) ∧
      (pushFaceFiles fs d nm i (fns.map (fun fn => (fn, DIRITEM_FILE))) acc).labels =
        acc.labels ++ List.replicate fns.length (i : Int) := by
  intro fns
  induction fns with
  | nil => intro acc; exact ⟨by simp [pushFaceFiles], by simp [pushFaceFiles]⟩
  | cons fn rest ih =>
    intro acc
    have step := ih
      { images := acc.images ++ [cvResize 64 64 (fs.readImage (d ++ "/" ++ fn))]
        labels := acc.labels ++ [(i : Int)]
        names := mapInsert acc.names (i : Int) nm }
    constructor
    · simp only [List.map_cons, pushFaceFiles, eq_self_iff_true, if_true]
      rw [step.1]
      simp
    · simp only [List.map_cons, pushFaceFiles, eq_self_iff_true, if_true]
      rw [step.2]
      simp [List.replicate_succ]

theorem traverseDirectory_const (fs : FileSystem) (p : String) (m₀ : StatMode)
    (es : List DirEnt) (hls : fs.listDir p = some es)
    (h : ∀ e ∈ es, ¬ isHidden e.name ∧ e.status = some m₀) :
    traverseDirectory fs p =
      ⟨0, es.map (·.name), es.map (fun _ => classifyMode m₀)⟩ := by
  simp only [traverseDirectory, hls]
  simpa using travLoop_const m₀ es [] [] h

theorem labelsFor_length : ∀ (ms : List Nat) (i : Nat),
    (labelsFor ms i).length = ms.sum := by
  intro ms
  induction ms with
  | nil => intro i; rfl
  | cons m rest ih => intro i; simp [labelsFor, ih]

theorem labelsFor_toFinset : ∀ (ms : List Nat) (i : Nat), (∀ m ∈ ms, 0 < m) →
    (labelsFor ms i).toFinset =
      (Finset.range ms.length).image (fun k => ((i + k : ℕ) : ℤ)) := by
  intro ms
  induction ms with
  | nil => intro i _; simp [labelsFor]
  | cons m rest ih =>
    intro i hpos
    have hm : m ≠ 0 :=
      Nat.pos_iff_ne_zero.mp (hpos m (List.mem_cons_self m rest))
    rw [labelsFor, List.toFinset_append, List.toFinset_replicate_of_ne_zero hm,
      ih (i + 1) (fun m' h' => hpos m' (List.mem_cons_of_mem m h'))]
    ext x
    simp only [Finset.mem_union, Finset.mem_singleton, Finset.mem_image,
      Finset.mem_range, List.length_cons]
    constructor
    · rintro (rfl | ⟨k, hk, rfl⟩)
      · exact ⟨0, by omega, by omega⟩
      · exact ⟨k + 1, by omega, by omega⟩
    · rintro ⟨k, hk, rfl⟩
      cases k with
      | zero => left; omega
      | succ k' => right; exact ⟨k', by omega, by omega⟩

theorem loadFaceLoop_clean (fs : FileSystem) (base : String) :
    ∀ (es : List DirEnt) (i : Nat) (acc : FaceDataset),
      (∀ e ∈ es, ∃ sub, fs.listDir (base ++ "/" ++ e.name) = some sub ∧
        ∀ f ∈ sub, ¬ isHidden f.name ∧ f.status = some StatMode.regMode) →
      ∃ ds, loadFaceLoop fs base (es.map (fun e => (e.name, DIRITEM_DIR))) i acc =
          .ok ds ∧
        ds.images.length = acc.images.length + (es.map (fun e =>
          ((fs.listDir (base ++ "/" ++ e.name)).getD []).length)).sum ∧
        (∀ img ∈ ds.images, img ∈ acc.images ∨ (img.rows = 64 ∧ img.cols = 64)) ∧
        ds.labels = acc.labels ++ labelsFor (es.map (fun e =>
          ((fs.listDir (base ++ "/" ++ e.name)).getD []).length)) i := by
  intro es
  induction es with
  | nil =>
    intro i acc _
    exact ⟨acc, rfl, by simp, fun img h => Or.inl h, by simp [labelsFor]⟩
  | cons e rest ih =>
    intro i acc hsub
    obtain ⟨sub, hls, hclean⟩ := hsub e (List.mem_cons_self e rest)
    have htrav : traverseDirectory fs (base ++ "/" ++ e.name) =
        ⟨0, sub.map (·.name), sub.map (fun _ => classifyMode StatMode.regMode)⟩ :=
      traverseDirectory_const fs (base ++ "/" ++ e.name) StatMode.regMode sub
        hls hclean
    have hzip : (traverseDirectory fs (base ++ "/" ++ e.name)).items.zip
        (traverseDirectory fs (base ++ "/" ++ e.name)).types =
        (sub.map (·.name)).map (fun fn => (fn, DIRITEM_FILE)) := by
      rw [htrav]
      show (sub.map (·.name)).zip (sub.map (fun _ => DIRITEM_FILE)) = _
      rw [List.zip_map' (·.name) (fun _ => DIRITEM_FILE) sub, List.map_map]
      rfl
    have hpush := pushFaceFiles_allFiles fs (base ++ "/" ++ e.name) e.name i
      (sub.map (·.name))
      { images := acc.images, labels := acc.labels, names := acc.names }
    obtain ⟨ds, hok, hlen, hmem, hlab⟩ := ih (i + 1)
      (pushFaceFiles fs (base ++ "/" ++ e.name) e.name i
        ((sub.map (·.name)).map (fun fn => (fn, DIRITEM_FILE)))
        { images := acc.images, labels := acc.labels, names := acc.names })
      (fun e' he' => hsub e' (List.mem_cons_of_mem e he'))
    refine ⟨ds, ?_, ?_, ?_, ?_⟩
    · simp only [List.map_cons, loadFaceLoop, eq_self_iff_true, if_true]
      rw [htrav]
      simp only [show ¬ ((0 : Int) < 0) from by omega, if_false]
      rw [List.zip_map' (·.name) (fun _ => classifyMode StatMode.regMode) sub]
      simp only [List.map_map] at hok
      have hfn : ((fun fn => (fn, DIRITEM_FILE)) ∘ fun x : DirEnt => x.name) =
          (fun x : DirEnt => (x.name, classifyMode StatMode.regMode)) := rfl
      rw [hfn] at hok
      exact hok
    · rw [hlen, hpush.1]
      simp only [List.length_append, List.length_map, List.map_cons,
        List.sum_cons, hls, Option.getD_some]
      omega
    · intro img hmemi
      rcases hmem img hmemi with hacc | h64
      · rw [hpush.1] at hacc
        rcases List.mem_append.mp hacc with h' | h'
        · exact Or.inl h'
        · right
          obtain ⟨fn, _, rfl⟩ := List.mem_map.mp h'
          exact ⟨rfl, rfl⟩
      · exact Or.inr h64
    · rw [hlab, hpush.2]
      simp only [List.map_cons, labelsFor, hls, Option.getD_some, List.length_map,
        List.append_assoc]

theorem loadFaceData_clean (fs : FileSystem) (datapath : String)
    (es : List DirEnt)
    (hfaces : fs.listDir (datapath ++ "/faces") = some es)
    (hdirs : ∀ e ∈ es, ¬ isHidden e.name ∧ e.status = some StatMode.dirMode)
    (hsubs : ∀ e ∈ es, ∃ sub,
      fs.listDir (datapath ++ "/faces" ++ "/" ++ e.name) = some sub ∧
      ∀ f ∈ sub, ¬ isHidden f.name ∧ f.status = some StatMode.regMode) :
    ∃ ds, loadFaceData fs datapath = .ok ds ∧
      ds.images.length = (es.map (fun e =>
        ((fs.listDir (datapath ++ "/faces" ++ "/" ++ e.name)).getD []).length)).sum ∧
      (∀ img ∈ ds.images, img.rows = 64 ∧ img.cols = 64) ∧
      ds.labels = labelsFor (es.map (fun e =>
        ((fs.listDir (datapath ++ "/faces" ++ "/" ++ e.name)).getD []).length)) 0 := by
  have htrav : traverseDirectory fs (datapath ++ "/faces") =
      ⟨0, es.map (·.name), es.map (fun _ => classifyMode StatMode.dirMode)⟩ :=
    traverseDirectory_const fs (datapath ++ "/faces") StatMode.dirMode es
      hfaces hdirs
  obtain ⟨ds, hok, hlen, hmem, hlab⟩ :=
    loadFaceLoop_clean fs (datapath ++ "/faces") es 0 emptyFaceDataset hsubs
  refine ⟨ds, ?_, ?_, ?_, ?_⟩
  · simp only [loadFaceData]
    rw [htrav]
    simp only [show ¬ ((0 : Int) < 0) from by omega, if_false]
    rw [List.zip_map' (·.name) (fun _ => classifyMode StatMode.dirMode) es]
    have hfn : (fun x : DirEnt => (x.name, classifyMode StatMode.dirMode)) =
        (fun x : DirEnt => (x.name, DIRITEM_DIR)) := rfl
    rw [hfn]
    exact hok
  · simpa [emptyFaceDataset] using hlen
  · intro img hmemi
    rcases hmem img hmemi with hacc | h64
    · simp [emptyFaceDataset] at hacc
    · exact h64
  · simpa [emptyFaceDataset] using hlab

theorem loadFaceLoop_err (fs : FileSystem) (base : String) :
    ∀ (ents : List (String × DirectoryItemType)) (i : Nat) (acc : FaceDataset),
      (∃ pr ∈ ents, pr.2 = DIRITEM_DIR ∧
        (traverseDirectory fs (base ++ "/" ++ pr.1)).status < 0) →
      ∃ msg st, loadFaceLoop fs base ents i acc = .error (msg, st) := by
  intro ents
  induction ents with
  | nil =>
    rintro i acc ⟨pr, hmem, _⟩
    simp at hmem
  | cons p rest ih =>
    rintro i acc ⟨pr, hmem, hdir, hfail⟩
    obtain ⟨nm, ty⟩ := p
    by_cases hty : ty = DIRITEM_DIR
    · subst hty
      by_cases hst : (traverseDirectory fs (base ++ "/" ++ nm)).status < 0
      · refine ⟨"Cannot read the face image directory " ++ (base ++ "/" ++ nm)
          ++ ".", acc, ?_⟩
        simp [loadFaceLoop, hst]
      · rcases List.mem_cons.mp hmem with rfl | hmem'
        · exact absurd hfail hst
        · obtain ⟨msg, st, hrec⟩ := ih (i + 1)
            (pushFaceFiles fs (base ++ "/" ++ nm) nm i
              ((traverseDirectory fs (base ++ "/" ++ nm)).items.zip
                (traverseDirectory fs (base ++ "/" ++ nm)).types) acc)
            ⟨pr, hmem', hdir, hfail⟩
          refine ⟨msg, st, ?_⟩
          simp only [loadFaceLoop, eq_self_iff_true, if_true, hst, if_false]
          exact hrec
    · rcases List.mem_cons.mp hmem with rfl | hmem'
      · exact absurd hdir hty
      · obtain ⟨msg, st, hrec⟩ := ih (i + 1) acc ⟨pr, hmem', hdir, hfail⟩
        refine ⟨msg, st, ?_⟩
        simp only [loadFaceLoop, hty, if_false]
        exact hrec

/-! ### C1, C2 and C4: the dataset loader -/

/-- C1 counterexample: a faces directory with N = 1 person directory whose
M1 = 0 means the loaded dataset has Sum Mi = 0 samples but 0 distinct
labels, not the N = 1 the claim requires. -/
theorem dataset_loader_counterexample :
    (loadFaceData fsEmptyPerson "db").toOption.map
      (fun ds => (ds.images.length, ds.labels.toFinset.card)) =
      some ((0 : Nat), (0 : Nat)) ∧
    ¬ ((0 : Nat) = 1) := ⟨rfl, by decide⟩

/-- C1 (amended): for a faces directory enumerating N person directories
each containing Mi >= 1 regular image files (all entries unhidden and
stat-able), `loadFaceData` produces exactly Sum Mi samples, exactly N
distinct label values, and every sample image has dimensions 64x64.  (When
some Mi = 0 that directory contributes no sample and no label, so only the
directories with at least one image contribute distinct labels.) -/
theorem dataset_loader_counts (fs : FileSystem) (datapath : String)
    (es : List DirEnt)
    (hfaces : fs.listDir (datapath ++ "/faces") = some es)
    (hdirs : ∀ e ∈ es, ¬ isHidden e.name ∧ e.status = some StatMode.dirMode)
    (hsubs : ∀ e ∈ es, ∃ sub,
      fs.listDir (datapath ++ "/faces" ++ "/" ++ e.name) = some sub ∧
      sub ≠ [] ∧
      ∀ f ∈ sub, ¬ isHidden f.name ∧ f.status = some StatMode.regMode) :
    ∃ ds, loadFaceData fs datapath = .ok ds ∧
      ds.images.length = (es.map (fun e =>
        ((fs.listDir (datapath ++ "/faces" ++ "/" ++ e.name)).getD []).length)).sum ∧
      ds.labels.length = (es.map (fun e =>
        ((fs.listDir (datapath ++ "/faces" ++ "/" ++ e.name)).getD []).length)).sum ∧
      ds.labels.toFinset.card = es.length ∧
      ∀ img ∈ ds.images, img.rows = 64 ∧ img.cols = 64 := by
  obtain ⟨ds, hok, hlen, hmem, hlab⟩ := loadFaceData_clean fs datapath es hfaces
    hdirs (fun e he => ((hsubs e he).imp (fun sub h => ⟨h.1, h.2.2⟩)))
  have hpos : ∀ m ∈ es.map (fun e =>
      ((fs.listDir (datapath ++ "/faces" ++ "/" ++ e.name)).getD []).length),
      0 < m := by
    intro m hm
    obtain ⟨e, he, rfl⟩ := List.mem_map.mp hm
    obtain ⟨sub, hls, hne, _⟩ := hsubs e he
    rw [hls]
    simpa using List.length_pos.mpr hne
  have hinj : Function.Injective (fun k : ℕ => ((0 + k : ℕ) : ℤ)) := by
    intro a b hab
    simp only [Nat.zero_add, Nat.cast_inj] at hab
    exact hab
  refine ⟨ds, hok, hlen, ?_, ?_, hmem⟩
  · rw [hlab, labelsFor_length]
  · rw [hlab, labelsFor_toFinset _ 0 hpos,
      Finset.card_image_of_injective _ hinj, Finset.card_range, List.length_map]

/-- The person subdirectories of `fsOne`, packaged for the loader
hypotheses. -/
theorem fsOne_faces_subdirs :
    ∀ e ∈ ([⟨"alice", some StatMode.dirMode⟩, ⟨"bob", some StatMode.dirMode⟩] :
      List DirEnt),
      ∃ sub, fsOne.listDir ("db" ++ "/faces" ++ "/" ++ e.name) = some sub ∧
        sub ≠ [] ∧
        ∀ f ∈ sub, ¬ isHidden f.name ∧ f.status = some StatMode.regMode := by
  intro e he
  rcases List.mem_cons.mp he with rfl | he'
  · exact ⟨[⟨"a1.jpg", some .regMode⟩, ⟨"a2.jpg", some .regMode⟩], rfl,
      by decide, by decide⟩
  · rcases List.mem_cons.mp he' with rfl | he''
    · exact ⟨[⟨"b1.jpg", some .regMode⟩], rfl, by decide, by decide⟩
    · simp at he''

/-- Witness for C1 at a two-person database with 2 and 1 images. -/
theorem dataset_loader_counts_witness :
    ∃ ds, loadFaceData fsOne "db" = .ok ds ∧ ds.images.length = 3 ∧
      ds.labels.length = 3 ∧ ds.labels.toFinset.card = 2 := by
  obtain ⟨ds, hok, h1, h2, h3, _⟩ := dataset_loader_counts fsOne "db"
    [⟨"alice", some StatMode.dirMode⟩, ⟨"bob", some StatMode.dirMode⟩] rfl
    (by decide) fsOne_faces_subdirs
  refine ⟨ds, hok, ?_, ?_, ?_⟩
  · rw [h1]; rfl
  · rw [h2]; rfl
  · rw [h3]; rfl

/-- C2 counterexample: with a non-directory entry enumerated before the
only person directory, `alice` receives label 1 (its index in the full
enumeration), so the set of labels used is {1}, not {0} as the claim
requires for N = 1. -/
theorem label_assignment_counterexample :
    (loadFaceData fsInterleaved "db").toOption.map (fun ds => ds.labels) =
      some [(1 : Int)] ∧
    ¬ (([(1 : Int)].toFinset : Finset ℤ) = ({0} : Finset ℤ)) :=
  ⟨rfl, by decide⟩

/-- C2 (amended): a person directory's label is its index in the full
faces-directory enumeration (non-directory entries consume indices too);
when the enumeration consists solely of person directories, each holding at
least one regular image file, the set of labels used is exactly
{0, ..., N-1}. -/
theorem label_assignment_dense (fs : FileSystem) (datapath : String)
    (es : List DirEnt)
    (hfaces : fs.listDir (datapath ++ "/faces") = some es)
    (hdirs : ∀ e ∈ es, ¬ isHidden e.name ∧ e.status = some StatMode.dirMode)
    (hsubs : ∀ e ∈ es, ∃ sub,
      fs.listDir (datapath ++ "/faces" ++ "/" ++ e.name) = some sub ∧
      sub ≠ [] ∧
      ∀ f ∈ sub, ¬ isHidden f.name ∧ f.status = some StatMode.regMode) :
    ∃ ds, loadFaceData fs datapath = .ok ds ∧
      ds.labels.toFinset =
        (Finset.range es.length).image (fun k : ℕ => (k : ℤ)) := by
  obtain ⟨ds, hok, _, _, hlab⟩ := loadFaceData_clean fs datapath es hfaces
    hdirs (fun e he => ((hsubs e he).imp (fun sub h => ⟨h.1, h.2.2⟩)))
  have hpos : ∀ m ∈ es.map (fun e =>
      ((fs.listDir (datapath ++ "/faces" ++ "/" ++ e.name)).getD []).length),
      0 < m := by
    intro m hm
    obtain ⟨e, he, rfl⟩ := List.mem_map.mp hm
    obtain ⟨sub, hls, hne, _⟩ := hsubs e he
    rw [hls]
    simpa using List.length_pos.mpr hne
  have hfun : (fun k : ℕ => ((0 + k : ℕ) : ℤ)) = (fun k : ℕ => (k : ℤ)) := by
    funext k
    omega
  refine ⟨ds, hok, ?_⟩
  rw [hlab, labelsFor_toFinset _ 0 hpos, List.length_map, hfun]

/-- Witness for C2 at the same two-person database: the labels used are
exactly {0, 1}. -/
theorem label_assignment_dense_witness :
    ∃ ds, loadFaceData fsOne "db" = .ok ds ∧
      ds.labels.toFinset = ({0, 1} : Finset ℤ) := by
  obtain ⟨ds, hok, hset⟩ := label_assignment_dense fsOne "db"
    [⟨"alice", some StatMode.dirMode⟩, ⟨"bob", some StatMode.dirMode⟩] rfl
    (by decide) fsOne_faces_subdirs
  refine ⟨ds, hok, ?_⟩
  rw [hset]
  decide

/-- C4 counterexample: with the first person directory loaded and the
second unreadable, `loadFaceData` exits with an error, but the output
containers hold the sample and registry entry loaded for `alice` during the
failed call — not "no samples" as the claim requires. -/
theorem load_failure_counterexample :
    errContainers (loadFaceData fsBadSub "db") =
      some ([(0 : Int)], [((0 : Int), "alice")]) ∧
    ([(0 : Int)] : List Int) ≠ [] :=
  ⟨rfl, by decide⟩

/-- C4 (amended): an unreadable faces directory or person subdirectory
always makes `loadFaceData` fail with an error (the `CV_Error` exception;
the callers abort), and when the faces directory itself is unreadable the
output containers are empty; when a person subdirectory fails partway,
however, the containers may retain the samples loaded before the failure. -/
theorem load_failure_behaviour :
    (∀ (fs : FileSystem) (datapath : String),
      (traverseDirectory fs (datapath ++ "/faces")).status < 0 →
      loadFaceData fs datapath = .error
        ("Cannot read the face database directory " ++ (datapath ++ "/faces")
          ++ ".", emptyFaceDataset)) ∧
    (∀ (fs : FileSystem) (datapath : String),
      ¬ (traverseDirectory fs (datapath ++ "/faces")).status < 0 →
      (∃ pr ∈ (traverseDirectory fs (datapath ++ "/faces")).items.zip
          (traverseDirectory fs (datapath ++ "/faces")).types,
        pr.2 = DIRITEM_DIR ∧
        (traverseDirectory fs (datapath ++ "/faces" ++ "/" ++ pr.1)).status <
          0) →
      ∃ msg st, loadFaceData fs datapath = .error (msg, st)) := by
  constructor
  · intro fs dp h
    simp [loadFaceData, h]
  · intro fs dp h hex
    obtain ⟨msg, st, herr⟩ := loadFaceLoop_err fs (dp ++ "/faces")
      ((traverseDirectory fs (dp ++ "/faces")).items.zip
        (traverseDirectory fs (dp ++ "/faces")).types) 0 emptyFaceDataset hex
    refine ⟨msg, st, ?_⟩
    simp only [loadFaceData, h, if_false]
    exact herr

/-- Witness for C4: an unreadable faces directory yields the error with
empty containers, and an unreadable person subdirectory yields an error. -/
theorem load_failure_behaviour_witness :
    loadFaceData fsUnreadable "db" = .error
      ("Cannot read the face database directory " ++ ("db" ++ "/faces") ++
        ".", emptyFaceDataset) ∧
    (∃ msg st, loadFaceData fsBadSub "db" = .error (msg, st)) := by
  constructor
  · exact load_failure_behaviour.1 fsUnreadable "db" (by decide)
  · apply load_failure_behaviour.2 fsBadSub "db" (by decide)
    refine ⟨("bob", DIRITEM_DIR), ?_, rfl, ?_⟩
    · show ("bob", DIRITEM_DIR) ∈ [("alice", DIRITEM_DIR), ("bob", DIRITEM_DIR)]
      simp
    · decide

/-! ### Lemmas about streams and token extraction -/

theorem stringDataEq {s t : String} (h : s.data = t.data) : s = t := by
  cases s
  cases t
  exact congrArg String.mk h

theorem firstToken_of_noWS (s : String)
    (h : ∀ c ∈ s.data, isCppSpace c = false) : firstToken s = s := by
  have hdrop : s.data.dropWhile isCppSpace = s.data := by
    cases hd : s.data with
    | nil => rfl
    | cons c cs =>
      have hc : isCppSpace c = false := h c (by rw [hd]; exact List.mem_cons_self c cs)
      simp [List.dropWhile, hc]
  have htake : s.data.takeWhile (fun c => !isCppSpace c) = s.data :=
    List.takeWhile_eq_self_iff.mpr (fun c hc => by simp [h c hc])
  calc firstToken s = ⟨s.data⟩ := by simp only [firstToken, hdrop, htake]
    _ = s := rfl

theorem takeWhile_append_first (p : Char → Bool) :
    ∀ (l1 l2 : List Char) (c : Char), (∀ x ∈ l1, p x = true) → p c = false →
      (l1 ++ c :: l2).takeWhile p = l1 := by
  intro l1
  induction l1 with
  | nil => intro l2 c _ hc; simp [List.takeWhile, hc]
  | cons a as ih =>
    intro l2 c h hc
    have ha : p a = true := h a (List.mem_cons_self a as)
    simp only [List.cons_append, List.takeWhile, ha]
    show a :: List.takeWhile p (as ++ c :: l2) = a :: as
    rw [ih l2 c (fun x hx => h x (List.mem_cons_of_mem a hx)) hc]

theorem mem_specQuotedJoin_data :
    ∀ (ps : List String) (c : Char), c ∈ (specQuotedJoin ps).data →
      c = '"' ∨ c = ',' ∨ ∃ p ∈ ps, c ∈ p.data := by
  intro ps
  induction ps with
  | nil => intro c hc; simp [specQuotedJoin] at hc
  | cons p rest ih =>
    intro c hc
    cases rest with
    | nil =>
      simp only [specQuotedJoin, String.data_append] at hc
      rcases List.mem_append.mp hc with hc' | hc'
      · rcases List.mem_append.mp hc' with hc'' | hc''
        · left; simpa using hc''
        · exact Or.inr (Or.inr ⟨p, List.mem_cons_self p [], hc''⟩)
      · left; simpa using hc'
    | cons q rest' =>
      simp only [specQuotedJoin, String.data_append] at hc
      rcases List.mem_append.mp hc with hc' | hc'
      · rcases List.mem_append.mp hc' with hc'' | hc''
        · rcases List.mem_append.mp hc'' with h3 | h3
          · rcases List.mem_append.mp h3 with h4 | h4
            · left; simpa using h4
            · exact Or.inr (Or.inr ⟨p, List.mem_cons_self p (q :: rest'), h4⟩)
          · left; simpa using h3
        · right; left; simpa using hc''
      · rcases ih c hc' with h' | h' | ⟨p', hp', hcp⟩
        · exact Or.inl h'
        · exact Or.inr (Or.inl h')
        · exact Or.inr (Or.inr ⟨p', List.mem_cons_of_mem p hp', hcp⟩)

theorem specQuotedJoin_noWS (ps : List String)
    (h : ∀ p ∈ ps, ∀ c ∈ p.data, isCppSpace c = false) :
    ∀ c ∈ (specQuotedJoin ps).data, isCppSpace c = false := by
  intro c hc
  rcases mem_specQuotedJoin_data ps c hc with rfl | rfl | ⟨p, hp, hcp⟩
  · decide
  · decide
  · exact h p hp c hcp

theorem protraitsJoin_spec (dirUsr : String) :
    ∀ l : List (String × DirectoryItemType),
      protraitsJoin dirUsr l true = specQuotedJoin (filePathsOf dirUsr l) ∧
      protraitsJoin dirUsr l false =
        (if filePathsOf dirUsr l = [] then ""
         else "," ++ specQuotedJoin (filePathsOf dirUsr l)) := by
  intro l
  induction l with
  | nil => exact ⟨rfl, rfl⟩
  | cons p rest ih =>
    obtain ⟨fn, ty⟩ := p
    by_cases hty : ty = DIRITEM_FILE
    · subst hty
      have hfp : filePathsOf dirUsr ((fn, DIRITEM_FILE) :: rest) =
          (dirUsr ++ "/" ++ fn) :: filePathsOf dirUsr rest := by
        simp [filePathsOf]
      cases hrest : filePathsOf dirUsr rest with
      | nil =>
        have h1 : protraitsJoin dirUsr rest false = "" := by
          rw [ih.2, hrest]
          rfl
        constructor
        · apply stringDataEq
          simp only [protraitsJoin, eq_self_iff_true, if_true, hfp, hrest, h1]
          simp [String.data_append, specQuotedJoin]
        · apply stringDataEq
          simp only [protraitsJoin, eq_self_iff_true, if_true, hfp, hrest, h1]
          simp [String.data_append, specQuotedJoin]
      | cons q rest' =>
        have h1 : protraitsJoin dirUsr rest false =
            "," ++ specQuotedJoin (q :: rest') := by
          rw [ih.2, hrest]
          simp
        constructor
        · apply stringDataEq
          simp only [protraitsJoin, eq_self_iff_true, if_true, hfp, hrest, h1]
          simp [String.data_append, specQuotedJoin]
        · apply stringDataEq
          simp only [protraitsJoin, eq_self_iff_true, if_true, hfp, hrest, h1]
          simp [String.data_append, specQuotedJoin]
    · have hfp : filePathsOf dirUsr ((fn, ty) :: rest) =
          filePathsOf dirUsr rest := by
        simp [filePathsOf, hty]
      constructor
      · simp only [protraitsJoin, hty, if_false, hfp, Bool.false_eq_true]
        exact ih.1
      · simp only [protraitsJoin, hty, if_false, hfp, Bool.false_eq_true]
        exact ih.2

theorem searchProtraits_notFound (fs : FileSystem) (dirProtraits name : String) :
    ∀ L : List (String × DirectoryItemType), (∀ pr ∈ L, pr.1 ≠ name) →
      searchProtraits fs dirProtraits name L = "" := by
  intro L
  induction L with
  | nil => intro _; rfl
  | cons p rest ih =>
    intro h
    obtain ⟨nm, ty⟩ := p
    have hne : name ≠ nm := fun he =>
      h (nm, ty) (List.mem_cons_self (nm, ty) rest) he.symm
    simp only [searchProtraits, hne, if_false]
    exact ih (fun pr hpr => h pr (List.mem_cons_of_mem (nm, ty) hpr))

theorem searchProtraits_found (fs : FileSystem) (dirProtraits name : String) :
    ∀ (L1 L2 : List (String × DirectoryItemType)) (ty : DirectoryItemType),
      (∀ pr ∈ L1, pr.1 ≠ name) →
      searchProtraits fs dirProtraits name (L1 ++ (name, ty) :: L2) =
        (if ty ≠ DIRITEM_DIR then ""
         else protraitsJoin (dirProtraits ++ "/" ++ name)
          ((traverseDirectory fs (dirProtraits ++ "/" ++ name)).items.zip
            (traverseDirectory fs (dirProtraits ++ "/" ++ name)).types) true) := by
  intro L1
  induction L1 with
  | nil =>
    intro L2 ty _
    simp only [List.nil_append, searchProtraits, eq_self_iff_true, if_true]
  | cons p rest ih =>
    intro L2 ty h
    obtain ⟨nm, ty'⟩ := p
    have hne : name ≠ nm := fun he =>
      h (nm, ty') (List.mem_cons_self (nm, ty') rest) he.symm
    simp only [List.cons_append, searchProtraits, hne, if_false]
    exact ih L2 ty (fun pr hpr => h pr (List.mem_cons_of_mem (nm, ty') hpr))

/-! ### C5 and C10: the name-to-portraits tool and the info-file writer -/

/-- C5 counterexample: with a portrait file name containing a space, the
written content is truncated at the whitespace, so it does not contain the
K = 1 full path the claim requires. -/
theorem name_to_portraits_counterexample :
    (name2ProtraitsMain fsSpacePath "d" "bob" true).content =
      some ("[\"d/protraits/bob/a]" ++ "\n") ∧
    ¬ ((name2ProtraitsMain fsSpacePath "d" "bob" true).content =
      some ("[" ++ "\"" ++ "d/protraits/bob/a b.jpg" ++ "\"" ++ "]" ++ "\n")) :=
  ⟨rfl, by decide⟩

/-- C5 (amended): the tool always exits 0; when no directory matching the
name exists under `<data_path>/protraits` (missing protraits directory, no
entry of that name, or a non-directory entry of that name) the output file
contains `[]`; when the first matching entry is a directory and none of the
serialized full paths (`<data_path>/protraits/<name>/<file>`, absolute
exactly when `<data_path>` is) contains whitespace, the output contains
exactly the K `DIRITEM_FILE` entries' paths, quoted, comma-separated, in
enumeration order.  (A path containing whitespace is truncated at the first
whitespace by the `>>` extraction.) -/
theorem name_to_portraits_results :
    (∀ (fs : FileSystem) (dirData name : String) (outOpens : Bool),
      (name2ProtraitsMain fs dirData name outOpens).exitCode = 0) ∧
    (∀ (fs : FileSystem) (dirData name : String),
      fs.pathExists (dirData ++ "/protraits") = false →
      (name2ProtraitsMain fs dirData name true).content =
        some ("[]" ++ "\n")) ∧
    (∀ (fs : FileSystem) (dirData name : String),
      fs.pathExists (dirData ++ "/protraits") = true →
      (∀ pr ∈ (traverseDirectory fs (dirData ++ "/protraits")).items.zip
        (traverseDirectory fs (dirData ++ "/protraits")).types, pr.1 ≠ name) →
      (name2ProtraitsMain fs dirData name true).content =
        some ("[]" ++ "\n")) ∧
    (∀ (fs : FileSystem) (dirData name : String)
      (L1 L2 : List (String × DirectoryItemType)) (ty : DirectoryItemType),
      fs.pathExists (dirData ++ "/protraits") = true →
      (traverseDirectory fs (dirData ++ "/protraits")).items.zip
        (traverseDirectory fs (dirData ++ "/protraits")).types =
        L1 ++ (name, ty) :: L2 →
      (∀ pr ∈ L1, pr.1 ≠ name) → ty ≠ DIRITEM_DIR →
      (name2ProtraitsMain fs dirData name true).content =
        some ("[]" ++ "\n")) ∧
    (∀ (fs : FileSystem) (dirData name : String)
      (L1 L2 : List (String × DirectoryItemType)),
      fs.pathExists (dirData ++ "/protraits") = true →
      (traverseDirectory fs (dirData ++ "/protraits")).items.zip
        (traverseDirectory fs (dirData ++ "/protraits")).types =
        L1 ++ (name, DIRITEM_DIR) :: L2 →
      (∀ pr ∈ L1, pr.1 ≠ name) →
      (∀ p ∈ filePathsOf (dirData ++ "/protraits" ++ "/" ++ name)
        ((traverseDirectory fs (dirData ++ "/protraits" ++ "/" ++ name)).items.zip
          (traverseDirectory fs (dirData ++ "/protraits" ++ "/" ++ name)).types),
        ∀ c ∈ p.data, isCppSpace c = false) →
      (name2ProtraitsMain fs dirData name true).content =
        some ("[" ++ specQuotedJoin
          (filePathsOf (dirData ++ "/protraits" ++ "/" ++ name)
            ((traverseDirectory fs (dirData ++ "/protraits" ++ "/" ++ name)).items.zip
              (traverseDirectory fs
                (dirData ++ "/protraits" ++ "/" ++ name)).types)) ++
          "]" ++ "\n")) := by
  refine ⟨fun _ _ _ _ => rfl, ?_, ?_, ?_, ?_⟩
  · intro fs d n h
    have hb : buildProtraitsInfo fs d n = "" := by
      simp [buildProtraitsInfo, h]
    simp only [name2ProtraitsMain, hb, if_true]
    rfl
  · intro fs d n h hall
    have hb : buildProtraitsInfo fs d n = "" := by
      simp only [buildProtraitsInfo, h, if_true]
      exact searchProtraits_notFound fs (d ++ "/protraits") n _ hall
    simp only [name2ProtraitsMain, hb, if_true]
    rfl
  · intro fs d n L1 L2 ty h hzip hL1 hty
    have hb : buildProtraitsInfo fs d n = "" := by
      simp only [buildProtraitsInfo, h, if_true]
      rw [hzip, searchProtraits_found fs (d ++ "/protraits") n L1 L2 ty hL1]
      simp [hty]
    simp only [name2ProtraitsMain, hb, if_true]
    rfl
  · intro fs d n L1 L2 h hzip hL1 hWS
    have hb : buildProtraitsInfo fs d n = specQuotedJoin
        (filePathsOf (d ++ "/protraits" ++ "/" ++ n)
          ((traverseDirectory fs (d ++ "/protraits" ++ "/" ++ n)).items.zip
            (traverseDirectory fs (d ++ "/protraits" ++ "/" ++ n)).types)) := by
      simp only [buildProtraitsInfo, h, if_true]
      rw [hzip,
        searchProtraits_found fs (d ++ "/protraits") n L1 L2 DIRITEM_DIR hL1]
      simp only [ne_eq, not_true_eq_false, if_false, ite_false]
      exact (protraitsJoin_spec (d ++ "/protraits" ++ "/" ++ n) _).1
    simp only [name2ProtraitsMain, hb, if_true]
    rw [show infoFileContent (specQuotedJoin _) = _ from rfl]
    rw [infoFileContent, firstToken_of_noWS _ (specQuotedJoin_noWS _ hWS)]

/-- Witness for C5: looking up `bob`, whose portrait directory holds two
files, in a real database. -/
theorem name_to_portraits_results_witness :
    (name2ProtraitsMain fsOne "db" "bob" true).exitCode = 0 ∧
    (name2ProtraitsMain fsOne "db" "bob" true).content =
      some ("[" ++ specQuotedJoin
        (filePathsOf ("db" ++ "/protraits" ++ "/" ++ "bob")
          ((traverseDirectory fsOne
            ("db" ++ "/protraits" ++ "/" ++ "bob")).items.zip
            (traverseDirectory fsOne
              ("db" ++ "/protraits" ++ "/" ++ "bob")).types)) ++
        "]" ++ "\n") :=
  ⟨name_to_portraits_results.1 fsOne "db" "bob" true,
   name_to_portraits_results.2.2.2.2 fsOne "db" "bob" [] [] rfl rfl
     (by intro pr hpr; simp at hpr) (by decide)⟩

/-- C10 counterexample: the `endl` appends a newline, so the file content
is `[]` plus a newline, not exactly `[]`, already for the empty stream. -/
theorem info_file_newline_counterexample :
    infoFileContent "" = "[]" ++ "\n" ∧ ¬ (infoFileContent "" = "[]") :=
  ⟨rfl, by decide⟩

/-- C10 (amended): in both tools the info file receives exactly `[`, the
first whitespace-delimited token extracted from the serialized stream, `]`
and a trailing newline (`[]` plus newline for the empty stream); hence for
a serialized stream that starts with a non-whitespace character and
contains a whitespace, everything from the first whitespace onward is
omitted. -/
theorem info_file_format :
    (∀ ss : String, infoFileContent ss =
      "[" ++ firstToken ss ++ "]" ++ "\n") ∧
    (infoFileContent "" = "[]" ++ "\n") ∧
    (∀ (l1 l2 : List Char) (c : Char), isCppSpace c = true →
      (∀ x ∈ l1, isCppSpace x = false) → l1 ≠ [] →
      infoFileContent ⟨l1 ++ c :: l2⟩ =
        "[" ++ (⟨l1⟩ : String) ++ "]" ++ "\n") ∧
    (∀ pieces : List String, batchInfoFile pieces =
      "[" ++ firstToken (batchSerialize pieces) ++ "]" ++ "\n") ∧
    (∀ (fs : FileSystem) (dirData name : String),
      (name2ProtraitsMain fs dirData name true).content =
        some ("[" ++ firstToken (buildProtraitsInfo fs dirData name) ++
          "]" ++ "\n")) := by
  refine ⟨fun _ => rfl, rfl, ?_, fun _ => rfl, fun _ _ _ => rfl⟩
  intro l1 l2 c hc h1 hne
  have hdrop : (l1 ++ c :: l2).dropWhile isCppSpace = l1 ++ c :: l2 := by
    cases l1 with
    | nil => exact absurd rfl hne
    | cons a as =>
      have ha := h1 a (List.mem_cons_self a as)
      simp [List.dropWhile, ha]
  have htake : (l1 ++ c :: l2).takeWhile (fun x => !isCppSpace x) = l1 :=
    takeWhile_append_first _ l1 l2 c (fun x hx => by simp [h1 x hx])
      (by simp [hc])
  simp only [infoFileContent, firstToken]
  rw [hdrop, htake]

/-- Witness for C10: a stream whose token is `"a` followed by a space and
more characters; the written content keeps only the part before the
space. -/
theorem info_file_format_witness :
    infoFileContent ⟨['"', 'a'] ++ ' ' :: ['b', '"']⟩ =
      "[" ++ (⟨['"', 'a']⟩ : String) ++ "]" ++ "\n" :=
  info_file_format.2.2.1 ['"', 'a'] ['b', '"'] ' ' (by decide) (by decide)
    (by decide)
